import Mathlib

/-!
Verification of the password generator in `Task-3.py`.

Randomness is modelled by an explicit entropy oracle `e : Nat → Nat`
together with a draw counter `t : Nat`: the `n`-th random draw of a run
reads `e n`.  `secrets.choice(pool)` becomes `choice pool (e t)` and the
counter advances by one per draw; `secrets.SystemRandom().shuffle` becomes
the Fisher–Yates loop `shuffle`, one draw per swap.  Python exceptions
(`ValueError`) become the `Except String` error channel.  A Python `str`
is a `List Char`; the category dict (insertion-ordered in Python) is an
association list in the same insertion order.
-/

namespace Task3

/-- Module constant `AMBIGUOUS = set("Il1O0`'\"/,\\|")`: the fixed set of
visually ambiguous characters.  The seven punctuation members are written
via their character codes: backtick 96, apostrophe 39, double quote 34,
slash 47, comma 44, backslash 92, vertical bar 124. -/
def AMBIGUOUS : List Char :=
  "Il1O0".toList ++
    [Char.ofNat 96, Char.ofNat 39, Char.ofNat 34, Char.ofNat 47,
     Char.ofNat 44, Char.ofNat 92, Char.ofNat 124]

/-- Module constant `LOWER = string.ascii_lowercase`. -/
def LOWER : List Char := "abcdefghijklmnopqrstuvwxyz".toList

/-- Module constant `UPPER = string.ascii_uppercase`. -/
def UPPER : List Char := "ABCDEFGHIJKLMNOPQRSTUVWXYZ".toList

/-- Module constant `DIGITS = string.digits`. -/
def DIGITS : List Char := "0123456789".toList

/-- Module constant `SYMBOLS = "!@#$%^&*()-_=+[]{};:,.<>?/"` (braces are
escaped as character codes in this string literal). -/
def SYMBOLS : List Char := "!@#$%^&*()-_=+[]\x7b\x7d;:,.<>?/".toList

/-- Embedding of `build_charset(use_lower, use_upper, use_digits,
use_symbols, avoid_ambiguous)`: the insertion-ordered dict of chosen
category names to their character pools; when `avoid_ambiguous` is set
each pool is filtered to drop members of `AMBIGUOUS`. -/
def build_charset (use_lower use_upper use_digits use_symbols : Bool)
    (avoid_ambiguous : Bool) : List (String × List Char) :=
  let sets : List (String × List Char) :=
    (if use_lower then [("lower", LOWER)] else []) ++
    (if use_upper then [("upper", UPPER)] else []) ++
    (if use_digits then [("digits", DIGITS)] else []) ++
    (if use_symbols then [("symbols", SYMBOLS)] else [])
  if avoid_ambiguous then
    sets.map (fun p => (p.1, p.2.filter (fun ch => !AMBIGUOUS.contains ch)))
  else
    sets

/-- Placeholder character produced by a draw from an empty pool; the
verified runs never reach it (`secrets.choice` on an empty pool cannot
return a value, and the pools in play are proved non-empty). -/
def defaultChar : Char := Char.ofNat 0

/-- Embedding of one `secrets.choice(pool)` draw fed the raw random
number `n`: the pool element at index `n` modulo the pool size. -/
def choice (pool : List Char) (n : Nat) : Char :=
  pool.getD (n % pool.length) defaultChar

/-- Guaranteed-slot phase, `[secrets.choice(sets[cat]) for cat in
categories]`: one draw per category pool, threading the draw counter. -/
def drawOneEach (pools : List (List Char)) (e : Nat → Nat) (t : Nat) :
    List Char × Nat :=
  match pools with
  | [] => ([], t)
  | p :: rest =>
    let c := choice p (e t)
    let r := drawOneEach rest e (t + 1)
    (c :: r.1, r.2)

/-- Filler phase, `[secrets.choice(combined) for _ in range(remaining)]`:
`n` draws from the combined pool, threading the draw counter. -/
def drawFill (combined : List Char) (n : Nat) (e : Nat → Nat) (t : Nat) :
    List Char × Nat :=
  match n with
  | 0 => ([], t)
  | m + 1 =>
    let c := choice combined (e t)
    let r := drawFill combined m e (t + 1)
    (c :: r.1, r.2)

/-- Simultaneous swap of positions `i` and `j`, `x[i], x[j] = x[j], x[i]`. -/
def swap (l : List Char) (i j : Nat) : List Char :=
  let a := l.getD i defaultChar
  let b := l.getD j defaultChar
  (l.set i b).set j a

/-- Fisher–Yates loop of `random.shuffle`: for the running index `v`
from `l.length - 1` down to `1`, draw `j` uniformly below `v + 1` and
swap positions `v` and `j`.  The argument `i` is the current index. -/
def shuffleFrom (l : List Char) (i : Nat) (e : Nat → Nat) (t : Nat) :
    List Char × Nat :=
  match i with
  | 0 => (l, t)
  | m + 1 =>
    let j := e t % (m + 2)
    shuffleFrom (swap l (m + 1) j) m e (t + 1)

/-- Embedding of `secrets.SystemRandom().shuffle(password_chars)`. -/
def shuffle (l : List Char) (e : Nat → Nat) (t : Nat) : List Char × Nat :=
  shuffleFrom l (l.length - 1) e t

/-- Drawing phase of `generate_password` (source lines 57–67), reached
only after validation: one guaranteed draw per category pool of `sets`,
then `length - k` filler draws from the concatenated combined pool, then
the final secure shuffle of the whole sequence. -/
def draw_phase (sets : List (String × List Char)) (length : Int)
    (e : Nat → Nat) (t : Nat) : List Char × Nat :=
  let g := drawOneEach (sets.map Prod.snd) e t
  let combined := (sets.map Prod.snd).flatten
  let remaining := (length - (g.1.length : Int)).toNat
  let f := drawFill combined remaining e g.2
  let password_chars := g.1 ++ f.1
  shuffle password_chars e f.2

/-- Embedding of `generate_password(length, use_lower, use_upper,
use_digits, use_symbols, avoid_ambiguous)`: validation in source order
(length positivity, at least one category, length at least the category
count), then the drawing phase.  The result carries the password
together with the advanced draw counter. -/
def generate_password (length : Int) (use_lower use_upper use_digits use_symbols : Bool)
    (avoid_ambiguous : Bool) (e : Nat → Nat) (t : Nat) :
    Except String (List Char × Nat) :=
  if length < 1 then Except.error "length must be >= 1"
  else
    let sets := build_charset use_lower use_upper use_digits use_symbols avoid_ambiguous
    if sets.isEmpty then Except.error "At least one character type must be enabled."
    else
      let categories := sets.map Prod.fst
      if length < (categories.length : Int) then
        Except.error ("length must be at least " ++ toString categories.length ++
          " to include one of each selected type.")
      else
        Except.ok (draw_phase sets length e t)

/-- Iteration of `[generate_password(**kwargs) for _ in range(count)]`
over a `Nat` repetition count, threading the draw counter and
propagating the first raised error. -/
def generate_many_go (n : Nat) (length : Int)
    (use_lower use_upper use_digits use_symbols avoid_ambiguous : Bool)
    (e : Nat → Nat) (t : Nat) : Except String (List (List Char) × Nat) :=
  match n with
  | 0 => Except.ok ([], t)
  | m + 1 =>
    match generate_password length use_lower use_upper use_digits use_symbols
        avoid_ambiguous e t with
    | Except.error msg => Except.error msg
    | Except.ok pw =>
      match generate_many_go m length use_lower use_upper use_digits use_symbols
          avoid_ambiguous e pw.2 with
      | Except.error msg => Except.error msg
      | Except.ok rest => Except.ok (pw.1 :: rest.1, rest.2)

/-- Embedding of `generate_many(count, **kwargs)`: a Python
`range(count)` over an `int` is empty for `count <= 0`, so the `Int`
count is clamped to `Nat` before iterating. -/
def generate_many (count : Int) (length : Int)
    (use_lower use_upper use_digits use_symbols avoid_ambiguous : Bool)
    (e : Nat → Nat) (t : Nat) : Except String (List (List Char) × Nat) :=
  generate_many_go count.toNat length use_lower use_upper use_digits use_symbols
    avoid_ambiguous e t

/-- Embedding of `try_copy_to_clipboard(text)`.  The external `pyperclip`
facility is a parameter: `none` models a failing import, `some copy`
models the imported module whose `copy` either succeeds or raises (an
`Except.error`).  The `try/except Exception` wrapper maps every failure
to `false` and success to `true`; the total `Bool` return type is the
never-raises contract. -/
def try_copy_to_clipboard (facility : Option (String → Except String Unit))
    (text : String) : Bool :=
  match facility with
  | none => false
  | some copy =>
    match copy text with
    | Except.ok _ => true
    | Except.error _ => false

/-! Facts about the draw primitives. -/

theorem choice_mem {pool : List Char} (h : pool ≠ []) (n : Nat) :
    choice pool n ∈ pool := by
  have hlen : 0 < pool.length := List.length_pos.mpr h
  have hmod : n % pool.length < pool.length := Nat.mod_lt _ hlen
  rw [choice, List.getD_eq_getElem pool defaultChar hmod]
  exact List.getElem_mem hmod

theorem choice_cases (pool : List Char) (n : Nat) :
    choice pool n = defaultChar ∨ choice pool n ∈ pool := by
  by_cases h : pool = []
  · subst h; left; rfl
  · right; exact choice_mem h n

theorem drawOneEach_length (pools : List (List Char)) (e : Nat → Nat) (t : Nat) :
    (drawOneEach pools e t).1.length = pools.length := by
  induction pools generalizing t with
  | nil => rfl
  | cons p rest ih => simp [drawOneEach, ih]

theorem drawOneEach_covers (pools : List (List Char)) (e : Nat → Nat) (t : Nat) :
    ∀ p ∈ pools, p ≠ [] → ∃ c ∈ (drawOneEach pools e t).1, c ∈ p := by
  induction pools generalizing t with
  | nil => intro p hp; exact absurd hp (List.not_mem_nil p)
  | cons q rest ih =>
    intro p hp hne
    rcases List.mem_cons.mp hp with h | h
    · subst h
      exact ⟨choice p (e t), List.mem_cons_self _ _, choice_mem hne (e t)⟩
    · obtain ⟨c, hc, hcp⟩ := ih (t + 1) p h hne
      exact ⟨c, List.mem_cons_of_mem _ hc, hcp⟩

theorem drawOneEach_mem (pools : List (List Char)) (e : Nat → Nat) (t : Nat) :
    ∀ c ∈ (drawOneEach pools e t).1, c = defaultChar ∨ ∃ p ∈ pools, c ∈ p := by
  induction pools generalizing t with
  | nil => intro c hc; exact absurd hc (List.not_mem_nil c)
  | cons q rest ih =>
    intro c hc
    rcases List.mem_cons.mp hc with h | h
    · subst h
      rcases choice_cases q (e t) with h0 | h0
      · exact Or.inl h0
      · exact Or.inr ⟨q, List.mem_cons_self _ _, h0⟩
    · rcases ih (t + 1) c h with h0 | ⟨p, hp, hcp⟩
      · exact Or.inl h0
      · exact Or.inr ⟨p, List.mem_cons_of_mem _ hp, hcp⟩

theorem drawFill_length (combined : List Char) (n : Nat) (e : Nat → Nat) (t : Nat) :
    (drawFill combined n e t).1.length = n := by
  induction n generalizing t with
  | zero => rfl
  | succ m ih => simp [drawFill, ih]

theorem drawFill_mem (combined : List Char) (n : Nat) (e : Nat → Nat) (t : Nat) :
    ∀ c ∈ (drawFill combined n e t).1, c = defaultChar ∨ c ∈ combined := by
  induction n generalizing t with
  | zero => intro c hc; exact absurd hc (List.not_mem_nil c)
  | succ m ih =>
    intro c hc
    rcases List.mem_cons.mp hc with h | h
    · subst h; exact choice_cases combined (e t)
    · exact ih (t + 1) c h

/-! Facts about the Fisher–Yates shuffle: it permutes its input. -/

theorem count_set_getD (l : List Char) (i : Nat) (a : Char) (h : i < l.length)
    (x : Char) :
    (l.set i a).count x + (if l.getD i defaultChar = x then 1 else 0) =
      l.count x + (if a = x then 1 else 0) := by
  induction l generalizing i with
  | nil => simp at h
  | cons hd tl ih =>
    cases i with
    | zero =>
      simp only [List.set_cons_zero, List.getD_cons_zero, List.count_cons,
        beq_iff_eq]
      omega
    | succ m =>
      have hm : m < tl.length := by simpa using h
      have := ih m hm
      simp only [List.set_cons_succ, List.getD_cons_succ, List.count_cons,
        beq_iff_eq]
      omega

theorem swap_perm (l : List Char) (i j : Nat) (hi : i < l.length)
    (hj : j < l.length) : (swap l i j).Perm l := by
  apply List.perm_iff_count.mpr
  intro x
  have hj' : j < (l.set i (l.getD j defaultChar)).length := by
    simpa using hj
  have e1 := count_set_getD (l.set i (l.getD j defaultChar)) j
    (l.getD i defaultChar) hj' x
  have e2 := count_set_getD l i (l.getD j defaultChar) hi x
  have hsame : (l.set i (l.getD j defaultChar)).getD j defaultChar =
      l.getD j defaultChar := by
    by_cases hij : i = j
    · subst hij
      rw [List.getD_eq_getElem _ _ hj']
      simp
    · rw [List.getD_eq_getElem _ _ hj', List.getElem_set_ne hij]
      exact (List.getD_eq_getElem l defaultChar hj).symm
  rw [hsame] at e1
  simp only [swap]
  omega

theorem shuffleFrom_perm (i : Nat) (l : List Char) (e : Nat → Nat) (t : Nat)
    (h : i < l.length) : ((shuffleFrom l i e t).1).Perm l := by
  induction i generalizing l t with
  | zero => exact List.Perm.refl l
  | succ m ih =>
    have hj : e t % (m + 2) < l.length :=
      lt_of_lt_of_le (Nat.mod_lt _ (by omega)) (by omega)
    have hswap := swap_perm l (m + 1) (e t % (m + 2)) h hj
    have hlen : (swap l (m + 1) (e t % (m + 2))).length = l.length := by
      simp [swap]
    have hm : m < (swap l (m + 1) (e t % (m + 2))).length := by omega
    exact (ih _ (t + 1) hm).trans hswap

theorem shuffle_perm (l : List Char) (e : Nat → Nat) (t : Nat) :
    ((shuffle l e t).1).Perm l := by
  match l with
  | [] => exact List.Perm.refl []
  | x :: xs =>
    have h : (x :: xs).length - 1 < (x :: xs).length := by simp
    exact shuffleFrom_perm _ _ e t h

theorem shuffle_length (l : List Char) (e : Nat → Nat) (t : Nat) :
    (shuffle l e t).1.length = l.length :=
  (shuffle_perm l e t).length_eq

/-! Facts about the drawing phase. -/

theorem draw_phase_length (sets : List (String × List Char)) (length : Int)
    (e : Nat → Nat) (t : Nat) (h2 : (sets.length : Int) ≤ length) :
    ((draw_phase sets length e t).1.length : Int) = length := by
  simp only [draw_phase]
  rw [shuffle_length, List.length_append, drawOneEach_length, drawFill_length]
  simp only [List.length_map]
  omega

theorem draw_phase_covers (sets : List (String × List Char)) (length : Int)
    (e : Nat → Nat) (t : Nat) :
    ∀ p ∈ sets, p.2 ≠ [] → ∃ c ∈ (draw_phase sets length e t).1, c ∈ p.2 := by
  intro p hp hne
  obtain ⟨c, hc, hcp⟩ := drawOneEach_covers (sets.map Prod.snd) e t p.2
    (List.mem_map_of_mem Prod.snd hp) hne
  refine ⟨c, ?_, hcp⟩
  simp only [draw_phase]
  exact (shuffle_perm _ e _).symm.subset (List.mem_append_left _ hc)

theorem draw_phase_mem (sets : List (String × List Char)) (length : Int)
    (e : Nat → Nat) (t : Nat) :
    ∀ c ∈ (draw_phase sets length e t).1,
      c = defaultChar ∨ ∃ p ∈ sets, c ∈ p.2 := by
  intro c hc
  simp only [draw_phase] at hc
  have hc' := (shuffle_perm _ e _).subset hc
  rcases List.mem_append.mp hc' with hg | hf
  · rcases drawOneEach_mem (sets.map Prod.snd) e t c hg with h0 | ⟨q, hq, hcq⟩
    · exact Or.inl h0
    · obtain ⟨p, hp, rfl⟩ := List.mem_map.mp hq
      exact Or.inr ⟨p, hp, hcq⟩
  · rcases drawFill_mem _ _ e _ c hf with h0 | hcomb
    · exact Or.inl h0
    · obtain ⟨q, hq, hcq⟩ := List.mem_flatten.mp hcomb
      obtain ⟨p, hp, rfl⟩ := List.mem_map.mp hq
      exact Or.inr ⟨p, hp, hcq⟩

/-- Success path of `generate_password`: when at least one category is
enabled and the length is at least the category count, every validation
check passes and the drawing phase runs. -/
theorem generate_password_ok (length : Int)
    (use_lower use_upper use_digits use_symbols avoid_ambiguous : Bool)
    (e : Nat → Nat) (t : Nat)
    (h1 : build_charset use_lower use_upper use_digits use_symbols avoid_ambiguous ≠ [])
    (h2 : ((build_charset use_lower use_upper use_digits use_symbols
      avoid_ambiguous).length : Int) ≤ length) :
    generate_password length use_lower use_upper use_digits use_symbols
        avoid_ambiguous e t =
      Except.ok (draw_phase (build_charset use_lower use_upper use_digits
        use_symbols avoid_ambiguous) length e t) := by
  have hpos : 0 < (build_charset use_lower use_upper use_digits use_symbols
      avoid_ambiguous).length := List.length_pos.mpr h1
  have hlen1 : ¬ (length < 1) := by omega
  have h3 : ¬ (length < (((build_charset use_lower use_upper use_digits
      use_symbols avoid_ambiguous).map Prod.fst).length : Int)) := by
    rw [List.length_map]; omega
  simp [generate_password, hlen1, h3, List.isEmpty_iff, h1]
  omega

/-! Facts about the category builder. -/

/-- Ambiguity filter used by `build_charset`. -/
def ambFilter (ch : Char) : Bool := !AMBIGUOUS.contains ch

theorem build_charset_pools (use_lower use_upper use_digits use_symbols : Bool)
    (avoid_ambiguous : Bool) :
    ∀ p ∈ build_charset use_lower use_upper use_digits use_symbols avoid_ambiguous,
      p.2 = LOWER ∨ p.2 = UPPER ∨ p.2 = DIGITS ∨ p.2 = SYMBOLS ∨
      p.2 = LOWER.filter ambFilter ∨ p.2 = UPPER.filter ambFilter ∨
      p.2 = DIGITS.filter ambFilter ∨ p.2 = SYMBOLS.filter ambFilter := by
  intro p hp
  have hcomp : ∀ (b : Bool) (q r : String × List Char),
      r ∈ (if b then [q] else []) → r = q := by
    intro b q r h
    cases b
    · simp at h
    · simpa using h
  simp only [build_charset] at hp
  cases avoid_ambiguous with
  | false =>
    simp only [if_neg Bool.false_ne_true, List.mem_append] at hp
    rcases hp with ((h | h) | h) | h
    · rw [hcomp _ _ _ h]; exact Or.inl rfl
    · rw [hcomp _ _ _ h]; exact Or.inr (Or.inl rfl)
    · rw [hcomp _ _ _ h]; exact Or.inr (Or.inr (Or.inl rfl))
    · rw [hcomp _ _ _ h]; exact Or.inr (Or.inr (Or.inr (Or.inl rfl)))
  | true =>
    rw [if_pos rfl] at hp
    simp only [List.mem_map, List.mem_append] at hp
    obtain ⟨q, hq, rfl⟩ := hp
    rcases hq with ((h | h) | h) | h
    · rw [hcomp _ _ _ h]
      exact Or.inr (Or.inr (Or.inr (Or.inr (Or.inl rfl))))
    · rw [hcomp _ _ _ h]
      exact Or.inr (Or.inr (Or.inr (Or.inr (Or.inr (Or.inl rfl)))))
    · rw [hcomp _ _ _ h]
      exact Or.inr (Or.inr (Or.inr (Or.inr (Or.inr (Or.inr (Or.inl rfl))))))
    · rw [hcomp _ _ _ h]
      exact Or.inr (Or.inr (Or.inr (Or.inr (Or.inr (Or.inr (Or.inr rfl))))))

theorem not_mem_of_ambFilter {c : Char} (h : ambFilter c = true) :
    c ∉ AMBIGUOUS := by
  intro hc
  simp [ambFilter] at h
  exact h hc

theorem build_charset_avoid (use_lower use_upper use_digits use_symbols : Bool) :
    ∀ p ∈ build_charset use_lower use_upper use_digits use_symbols true,
      ∀ c ∈ p.2, c ∉ AMBIGUOUS := by
  intro p hp c hc
  simp only [build_charset] at hp
  rw [if_pos trivial] at hp
  obtain ⟨q, hq, rfl⟩ := List.mem_map.mp hp
  exact not_mem_of_ambFilter (List.mem_filter.mp hc).2

theorem shipped_pools_nonempty_concrete :
    LOWER ≠ [] ∧ UPPER ≠ [] ∧ DIGITS ≠ [] ∧ SYMBOLS ≠ [] ∧
    LOWER.filter ambFilter ≠ [] ∧ UPPER.filter ambFilter ≠ [] ∧
    DIGITS.filter ambFilter ≠ [] ∧ SYMBOLS.filter ambFilter ≠ [] := by
  decide

/-! Error-path analysis of `generate_password`: which branch is taken
depends only on the configuration, never on the entropy oracle. -/

theorem generate_password_cases (length : Int)
    (use_lower use_upper use_digits use_symbols avoid_ambiguous : Bool) :
    (∃ m, ∀ e t, generate_password length use_lower use_upper use_digits
      use_symbols avoid_ambiguous e t = Except.error m) ∨
    (∀ e t, ∃ r, generate_password length use_lower use_upper use_digits
      use_symbols avoid_ambiguous e t = Except.ok r) := by
  by_cases h1 : length < 1
  · exact Or.inl ⟨"length must be >= 1",
      fun e t => by simp only [generate_password, if_pos h1]⟩
  · by_cases h2 : (build_charset use_lower use_upper use_digits use_symbols
        avoid_ambiguous).isEmpty = true
    · exact Or.inl ⟨"At least one character type must be enabled.",
        fun e t => by simp only [generate_password, if_neg h1, if_pos h2]⟩
    · by_cases h3 : length < (((build_charset use_lower use_upper use_digits
          use_symbols avoid_ambiguous).map Prod.fst).length : Int)
      · exact Or.inl ⟨"length must be at least " ++
          toString ((build_charset use_lower use_upper use_digits use_symbols
            avoid_ambiguous).map Prod.fst).length ++
          " to include one of each selected type.",
          fun e t => by simp only [generate_password, if_neg h1, if_neg h2, if_pos h3]⟩
      · exact Or.inr fun e t => ⟨draw_phase (build_charset use_lower use_upper
          use_digits use_symbols avoid_ambiguous) length e t,
          by simp only [generate_password, if_neg h1, if_neg h2, if_neg h3]⟩

theorem generate_password_error_indep (length : Int)
    (use_lower use_upper use_digits use_symbols avoid_ambiguous : Bool)
    (e : Nat → Nat) (t : Nat) (m : String)
    (h : generate_password length use_lower use_upper use_digits use_symbols
      avoid_ambiguous e t = Except.error m) :
    ∀ e' t', generate_password length use_lower use_upper use_digits
      use_symbols avoid_ambiguous e' t' = Except.error m := by
  intro e' t'
  rcases generate_password_cases length use_lower use_upper use_digits
      use_symbols avoid_ambiguous with ⟨m', hall⟩ | hok
  · have h1 := hall e t
    rw [h] at h1
    injection h1 with h2
    rw [hall e' t', h2]
  · obtain ⟨r, hr⟩ := hok e t
    rw [hr] at h
    exact absurd h (by simp)

/-! Facts about `generate_many`. -/

theorem generate_many_go_ok (length : Int)
    (use_lower use_upper use_digits use_symbols avoid_ambiguous : Bool)
    (hok : ∀ e t, ∃ r, generate_password length use_lower use_upper use_digits
      use_symbols avoid_ambiguous e t = Except.ok r) :
    ∀ (n : Nat) (e : Nat → Nat) (t : Nat), ∃ r,
      generate_many_go n length use_lower use_upper use_digits use_symbols
        avoid_ambiguous e t = Except.ok r := by
  intro n
  induction n with
  | zero => intro e t; exact ⟨([], t), rfl⟩
  | succ m ih =>
    intro e t
    obtain ⟨r, hr⟩ := hok e t
    obtain ⟨r', hr'⟩ := ih e r.2
    refine ⟨(r.1 :: r'.1, r'.2), ?_⟩
    simp only [generate_many_go, hr, hr']

/-! Claim theorems. -/

/-- C1: for every valid configuration (at least one enabled category,
length at least the number of enabled categories, each filtered pool
non-empty) and every entropy oracle, `generate_password` succeeds and
its output contains at least one character from each enabled category's
filtered pool. -/
theorem generate_password_covers_each_category (length : Int)
    (use_lower use_upper use_digits use_symbols avoid_ambiguous : Bool)
    (e : Nat → Nat) (t : Nat)
    (h1 : build_charset use_lower use_upper use_digits use_symbols avoid_ambiguous ≠ [])
    (h2 : ((build_charset use_lower use_upper use_digits use_symbols
      avoid_ambiguous).length : Int) ≤ length)
    (h3 : ∀ p ∈ build_charset use_lower use_upper use_digits use_symbols
      avoid_ambiguous, p.2 ≠ []) :
    ∃ pw t', generate_password length use_lower use_upper use_digits
        use_symbols avoid_ambiguous e t = Except.ok (pw, t') ∧
      ∀ p ∈ build_charset use_lower use_upper use_digits use_symbols
        avoid_ambiguous, ∃ c ∈ pw, c ∈ p.2 := by
  refine ⟨(draw_phase (build_charset use_lower use_upper use_digits use_symbols
      avoid_ambiguous) length e t).1,
    (draw_phase (build_charset use_lower use_upper use_digits use_symbols
      avoid_ambiguous) length e t).2, ?_, ?_⟩
  · rw [generate_password_ok length use_lower use_upper use_digits use_symbols
      avoid_ambiguous e t h1 h2]
  · intro p hp
    exact draw_phase_covers _ length e t p hp (h3 p hp)

/-- Witness for C1: the spec's own example configuration, length 8 with
all four categories enabled and no ambiguity filtering. -/
theorem generate_password_covers_each_category_witness :
    ∃ pw t', generate_password 8 true true true true false (fun _ => 0) 0 =
        Except.ok (pw, t') ∧
      ∀ p ∈ build_charset true true true true false, ∃ c ∈ pw, c ∈ p.2 :=
  generate_password_covers_each_category 8 true true true true false
    (fun _ => 0) 0 (by decide) (by decide) (by decide)

/-- C2: for every valid configuration and every entropy oracle,
`generate_password` succeeds and returns a password of exactly the
requested length. -/
theorem generate_password_exact_length (length : Int)
    (use_lower use_upper use_digits use_symbols avoid_ambiguous : Bool)
    (e : Nat → Nat) (t : Nat)
    (h1 : build_charset use_lower use_upper use_digits use_symbols avoid_ambiguous ≠ [])
    (h2 : ((build_charset use_lower use_upper use_digits use_symbols
      avoid_ambiguous).length : Int) ≤ length)
    (h3 : ∀ p ∈ build_charset use_lower use_upper use_digits use_symbols
      avoid_ambiguous, p.2 ≠ []) :
    ∃ pw t', generate_password length use_lower use_upper use_digits
        use_symbols avoid_ambiguous e t = Except.ok (pw, t') ∧
      (pw.length : Int) = length := by
  refine ⟨(draw_phase (build_charset use_lower use_upper use_digits use_symbols
      avoid_ambiguous) length e t).1,
    (draw_phase (build_charset use_lower use_upper use_digits use_symbols
      avoid_ambiguous) length e t).2, ?_, ?_⟩
  · rw [generate_password_ok length use_lower use_upper use_digits use_symbols
      avoid_ambiguous e t h1 h2]
  · exact draw_phase_length _ length e t h2

/-- Witness for C2: length 8 with all four categories enabled. -/
theorem generate_password_exact_length_witness :
    ∃ pw t', generate_password 8 true true true true false (fun _ => 0) 0 =
        Except.ok (pw, t') ∧ (pw.length : Int) = 8 :=
  generate_password_exact_length 8 true true true true false
    (fun _ => 0) 0 (by decide) (by decide) (by decide)

/-- C3: for every valid configuration with the ambiguity filter enabled
and every entropy oracle, `generate_password` succeeds and no character
of its output lies in the fixed `AMBIGUOUS` set. -/
theorem generate_password_avoids_ambiguous (length : Int)
    (use_lower use_upper use_digits use_symbols : Bool)
    (e : Nat → Nat) (t : Nat)
    (h1 : build_charset use_lower use_upper use_digits use_symbols true ≠ [])
    (h2 : ((build_charset use_lower use_upper use_digits use_symbols
      true).length : Int) ≤ length)
    (h3 : ∀ p ∈ build_charset use_lower use_upper use_digits use_symbols
      true, p.2 ≠ []) :
    ∃ pw t', generate_password length use_lower use_upper use_digits
        use_symbols true e t = Except.ok (pw, t') ∧
      ∀ c ∈ pw, c ∉ AMBIGUOUS := by
  refine ⟨(draw_phase (build_charset use_lower use_upper use_digits use_symbols
      true) length e t).1,
    (draw_phase (build_charset use_lower use_upper use_digits use_symbols
      true) length e t).2, ?_, ?_⟩
  · rw [generate_password_ok length use_lower use_upper use_digits use_symbols
      true e t h1 h2]
  · intro c hc
    rcases draw_phase_mem _ length e t c hc with h0 | ⟨p, hp, hcp⟩
    · subst h0; decide
    · exact build_charset_avoid use_lower use_upper use_digits use_symbols p hp c hcp

/-- Witness for C3: length 4 with all four categories enabled and the
ambiguity filter on. -/
theorem generate_password_avoids_ambiguous_witness :
    ∃ pw t', generate_password 4 true true true true true (fun _ => 0) 0 =
        Except.ok (pw, t') ∧ ∀ c ∈ pw, c ∉ AMBIGUOUS :=
  generate_password_avoids_ambiguous 4 true true true true
    (fun _ => 0) 0 (by decide) (by decide) (by decide)

/-- C4: with at least one enabled category, a requested length smaller
than the number of enabled categories makes `generate_password` raise a
`ValueError` (no password is returned). -/
theorem generate_password_rejects_short_length (length : Int)
    (use_lower use_upper use_digits use_symbols avoid_ambiguous : Bool)
    (e : Nat → Nat) (t : Nat)
    (h1 : build_charset use_lower use_upper use_digits use_symbols avoid_ambiguous ≠ [])
    (h4 : length < ((build_charset use_lower use_upper use_digits use_symbols
      avoid_ambiguous).length : Int)) :
    ∃ m, generate_password length use_lower use_upper use_digits use_symbols
      avoid_ambiguous e t = Except.error m := by
  by_cases h0 : length < 1
  · exact ⟨"length must be >= 1", by simp only [generate_password, if_pos h0]⟩
  · have h2 : ¬ (build_charset use_lower use_upper use_digits use_symbols
        avoid_ambiguous).isEmpty = true := by
      simp [List.isEmpty_iff, h1]
    have h3 : length < (((build_charset use_lower use_upper use_digits
        use_symbols avoid_ambiguous).map Prod.fst).length : Int) := by
      rw [List.length_map]; exact h4
    exact ⟨"length must be at least " ++
      toString ((build_charset use_lower use_upper use_digits use_symbols
        avoid_ambiguous).map Prod.fst).length ++
      " to include one of each selected type.",
      by simp only [generate_password, if_neg h0, if_neg h2, if_pos h3]⟩

/-- Witness for C4: the spec's example, length 2 with all four
categories enabled. -/
theorem generate_password_rejects_short_length_witness :
    ∃ m, generate_password 2 true true true true false (fun _ => 0) 0 =
      Except.error m :=
  generate_password_rejects_short_length 2 true true true true false
    (fun _ => 0) 0 (by decide) (by decide)

/-- C5: with zero enabled categories, `generate_password` raises a
`ValueError` for every requested length. -/
theorem generate_password_rejects_no_categories (length : Int)
    (avoid_ambiguous : Bool) (e : Nat → Nat) (t : Nat) :
    ∃ m, generate_password length false false false false avoid_ambiguous
      e t = Except.error m := by
  have hbc : build_charset false false false false avoid_ambiguous = [] := by
    cases avoid_ambiguous <;> rfl
  by_cases h0 : length < 1
  · exact ⟨"length must be >= 1", by simp only [generate_password, if_pos h0]⟩
  · have h2 : (build_charset false false false false
        avoid_ambiguous).isEmpty = true := by
      rw [hbc]; rfl
    exact ⟨"At least one character type must be enabled.",
      by simp only [generate_password, if_neg h0, if_pos h2]⟩

/-- C6: whenever `generate_many` raises a `ValueError` (for a positive
count), the failure is a configuration error detected before any random
draw: the very first `generate_password` call fails with that same
message, the outcome is independent of the entropy oracle and of the
draw counter, and no password of the batch is produced — the error
result carries no partial batch. -/
theorem generate_many_error_eager (count length : Int)
    (use_lower use_upper use_digits use_symbols avoid_ambiguous : Bool)
    (e : Nat → Nat) (t : Nat) (m : String) (hc : 1 ≤ count)
    (h : generate_many count length use_lower use_upper use_digits use_symbols
      avoid_ambiguous e t = Except.error m) :
    generate_password length use_lower use_upper use_digits use_symbols
        avoid_ambiguous e t = Except.error m ∧
      ∀ e' t', generate_many count length use_lower use_upper use_digits
        use_symbols avoid_ambiguous e' t' = Except.error m := by
  obtain ⟨k, hk⟩ : ∃ k, count.toNat = k + 1 := ⟨count.toNat - 1, by omega⟩
  rcases generate_password_cases length use_lower use_upper use_digits
      use_symbols avoid_ambiguous with ⟨m', hall⟩ | hok
  · have h1 : generate_many count length use_lower use_upper use_digits
        use_symbols avoid_ambiguous e t = Except.error m' := by
      simp only [generate_many, hk, generate_many_go, hall e t]
    rw [h] at h1
    injection h1 with h2
    subst h2
    refine ⟨hall e t, fun e' t' => ?_⟩
    simp only [generate_many, hk, generate_many_go, hall e' t']
  · exfalso
    obtain ⟨r, hr⟩ := generate_many_go_ok length use_lower use_upper use_digits
      use_symbols avoid_ambiguous hok count.toNat e t
    simp only [generate_many] at h
    rw [hr] at h
    exact absurd h (by simp)

/-- Witness for C6: one password requested at the invalid length 0; the
batch fails eagerly with the length error. -/
theorem generate_many_error_eager_witness :
    generate_password 0 true true true true false (fun _ => 0) 0 =
        Except.error "length must be >= 1" ∧
      ∀ e' t', generate_many 1 0 true true true true false e' t' =
        Except.error "length must be >= 1" :=
  generate_many_error_eager 1 0 true true true true false (fun _ => 0) 0
    "length must be >= 1" (by decide) rfl

/-- C7 (supporting theorem for the missing empty-pool check): the only
errors `generate_password` can raise are the three validation messages —
short length, zero categories, length below the category count.  No
error path for an emptied filtered pool exists anywhere in the code. -/
theorem generate_password_error_messages (length : Int)
    (use_lower use_upper use_digits use_symbols avoid_ambiguous : Bool)
    (e : Nat → Nat) (t : Nat) (m : String)
    (h : generate_password length use_lower use_upper use_digits use_symbols
      avoid_ambiguous e t = Except.error m) :
    m = "length must be >= 1" ∨
      m = "At least one character type must be enabled." ∨
      m = "length must be at least " ++
        toString (build_charset use_lower use_upper use_digits use_symbols
          avoid_ambiguous).length ++ " to include one of each selected type." := by
  by_cases h1 : length < 1
  · simp only [generate_password, if_pos h1] at h
    injection h with h2
    exact Or.inl h2.symm
  · by_cases h2 : (build_charset use_lower use_upper use_digits use_symbols
        avoid_ambiguous).isEmpty = true
    · simp only [generate_password, if_neg h1, if_pos h2] at h
      injection h with h3
      exact Or.inr (Or.inl h3.symm)
    · by_cases h3 : length < (((build_charset use_lower use_upper use_digits
          use_symbols avoid_ambiguous).map Prod.fst).length : Int)
      · simp only [generate_password, if_neg h1, if_neg h2, if_pos h3] at h
        rw [List.length_map] at h
        injection h with h4
        exact Or.inr (Or.inr h4.symm)
      · simp only [generate_password, if_neg h1, if_neg h2, if_neg h3] at h
        exact absurd h (by simp)

/-- Witness for C7's supporting theorem: the length error at length 0. -/
theorem generate_password_error_messages_witness :
    "length must be >= 1" = "length must be >= 1" ∨
      "length must be >= 1" = "At least one character type must be enabled." ∨
      "length must be >= 1" = "length must be at least " ++
        toString (build_charset true true true true false).length ++
        " to include one of each selected type." :=
  generate_password_error_messages 0 true true true true false
    (fun _ => 0) 0 "length must be >= 1" rfl

/-- C8: a non-positive count makes `generate_many` return the empty
batch without error and without touching the configuration or the
entropy oracle — the draw counter comes back unchanged, for every
configuration, valid or not. -/
theorem generate_many_nonpositive_count (count length : Int)
    (use_lower use_upper use_digits use_symbols avoid_ambiguous : Bool)
    (e : Nat → Nat) (t : Nat) (hc : count ≤ 0) :
    generate_many count length use_lower use_upper use_digits use_symbols
      avoid_ambiguous e t = Except.ok ([], t) := by
  have h0 : count.toNat = 0 := by omega
  simp only [generate_many, h0, generate_many_go]

/-- Witness for C8: count 0 with the invalid all-disabled configuration
still yields the empty batch. -/
theorem generate_many_nonpositive_count_witness :
    generate_many 0 5 false false false false false (fun _ => 0) 3 =
      Except.ok ([], 3) :=
  generate_many_nonpositive_count 0 5 false false false false false
    (fun _ => 0) 3 (by decide)

/-- C9: with the shipped category pools and the fixed ambiguous set,
every pool produced by `build_charset` is non-empty — filtered or not —
and so is the combined pool, hence neither `secrets.choice` call site in
`generate_password` ever sees an empty pool. -/
theorem build_charset_pools_never_empty
    (use_lower use_upper use_digits use_symbols avoid_ambiguous : Bool)
    (p : String × List Char)
    (hp : p ∈ build_charset use_lower use_upper use_digits use_symbols
      avoid_ambiguous) :
    p.2 ≠ [] ∧ ((build_charset use_lower use_upper use_digits use_symbols
      avoid_ambiguous).map Prod.snd).flatten ≠ [] := by
  obtain ⟨hL, hU, hD, hS, hLf, hUf, hDf, hSf⟩ := shipped_pools_nonempty_concrete
  have hne : p.2 ≠ [] := by
    rcases build_charset_pools use_lower use_upper use_digits use_symbols
        avoid_ambiguous p hp with h | h | h | h | h | h | h | h <;>
      rw [h] <;> assumption
  refine ⟨hne, ?_⟩
  obtain ⟨c, hc⟩ := List.exists_mem_of_ne_nil _ hne
  exact List.ne_nil_of_mem
    (List.mem_flatten_of_mem (List.mem_map_of_mem Prod.snd hp) hc)

/-- Witness for C9: the lowercase pool of the all-enabled, unfiltered
configuration. -/
theorem build_charset_pools_never_empty_witness :
    (("lower", LOWER) : String × List Char).2 ≠ [] ∧
      ((build_charset true true true true false).map Prod.snd).flatten ≠ [] :=
  build_charset_pools_never_empty true true true true false
    ("lower", LOWER) (by decide)

/-- C10: `try_copy_to_clipboard` returns a plain boolean for every input
— its total `Bool` type is the never-raises contract — and it returns
`true` exactly when the clipboard facility is present and its copy
operation succeeds; any failure (absent facility or a raised copy error)
comes back as `false`. -/
theorem try_copy_to_clipboard_bool
    (facility : Option (String → Except String Unit)) (text : String) :
    try_copy_to_clipboard facility text = true ↔
      ∃ copy, facility = some copy ∧ copy text = Except.ok () := by
  cases facility with
  | none => simp [try_copy_to_clipboard]
  | some copy =>
    cases hc : copy text with
    | ok u => cases u; simp [try_copy_to_clipboard, hc]
    | error msg => simp [try_copy_to_clipboard, hc]

end Task3
